import Mathlib

/-!
# termerino: the channel bridge between the chat listener and the Bubble Tea update loop

A shallow embedding of `src/main.go`.

* Go strings are `String`, slices are `List`.
* A Go channel value (`chan responseMsg`) is either the nil channel or a reference to a
  channel object; `Heap` gives, for each channel object, the values that were sent on it and
  have not been received yet, oldest first.
* `tea.Msg` (an empty interface) is the sum `Msg` of the dynamic types the type switch of
  `Update` tells apart; `tea.Cmd` (a function value) is the datatype `Cmd` of the commands this
  program can build.
* The widgets and the styling of the bubbles and lipgloss libraries are not part of the
  repository: their types and operations are the fields of `Widgets`, and every theorem holds
  for all of them.
* The Bubble Tea runtime is the function `step`: it hands one message at a time to `Update`
  and starts the tasks of the returned command. `tea.Quit` is a command like the others: the
  runtime starts it next to the tasks that are still pending, and the loop ends only when
  the runtime takes the message of that command (the event `quitMsg`).
-/

namespace Termerino

/-! ## Messages and commands -/

/-- The struct `responseMsg` (lines 21-24); the fields are in the declared order. -/
structure responseMsg where
  msg : String
  user : String
deriving DecidableEq, Repr

/-- A value of type `chan responseMsg`: `none` is the nil channel (the zero value),
`some c` refers to the channel object `c` made by `make`. -/
abbrev Chan := Option Nat

/-- The unreceived values of every channel object, oldest first. -/
abbrev Heap := Nat → List responseMsg

/-- A non-nil Go `error` value, identified by its text. -/
abbrev GoError := String

/-- The key types of `tea.KeyMsg` the program tells apart; every other key type is
`KeyOther` with its numeric code. -/
inductive KeyType
  | KeyCtrlC
  | KeyEsc
  | KeyEnter
  | KeyRunes
  | KeyOther (code : Nat)
deriving DecidableEq, Repr

/-- The struct `tea.KeyMsg`; `keyType` is its field `Type`. -/
structure KeyMsg where
  keyType : KeyType
  Runes : List Char
  Alt : Bool
deriving DecidableEq, Repr

/-- A `tea.Msg` by dynamic type, as the type switch of `Update` sees it: a `tea.KeyMsg`, a
`responseMsg`, a value that implements `error` (case `errMsg`), or anything else
(identified by a tag). -/
inductive Msg
  | key (k : KeyMsg)
  | response (r : responseMsg)
  | err (e : GoError)
  | other (tag : Nat)
deriving DecidableEq, Repr

/-- A command returned by a widget, identified by a tag; the program never inspects it. -/
abbrev WidgetCmd := Nat

/-- The `tea.Cmd` values the program can return. -/
inductive Cmd
  | nil
  | listen (sub : Chan)
  | wait (sub : Chan)
  | Quit
  | widget (c : WidgetCmd)
  | Batch (a b : Cmd)
deriving DecidableEq, Repr

/-- The wait tasks a command starts, with the channel each one receives from. -/
def Cmd.waits : Cmd → List Chan
  | Cmd.wait sub => [sub]
  | Cmd.Batch a b => a.waits ++ b.waits
  | _ => []

/-- The listener tasks a command starts, with the channel each one sends on. -/
def Cmd.listens : Cmd → List Chan
  | Cmd.listen sub => [sub]
  | Cmd.Batch a b => a.listens ++ b.listens
  | _ => []

/-- Whether a command contains `tea.Quit`. -/
def Cmd.quits : Cmd → Bool
  | Cmd.Quit => true
  | Cmd.Batch a b => a.quits || b.quits
  | _ => false

/-! ## Channel operations -/

/-- The receive `<-sub`: `none` when it blocks (nil channel, or nothing to receive),
otherwise the oldest value and the heap without it. -/
def recv (sub : Chan) (h : Heap) : Option (responseMsg × Heap) :=
  match sub with
  | none => none
  | some c =>
    match h c with
    | [] => none
    | x :: q => some (x, Function.update h c q)

/-- The send `sub <- v`: `none` when it blocks forever (nil channel), otherwise the heap
with `v` behind the values already sent. -/
def send (sub : Chan) (v : responseMsg) (h : Heap) : Option Heap :=
  match sub with
  | none => none
  | some c => some (Function.update h c (h c ++ [v]))

/-! ## The feed listener -/

/-- The part of `twitch.User` the callback reads. -/
structure User where
  DisplayName : String
deriving DecidableEq, Repr

/-- The part of `twitch.PrivateMessage` the callback reads. -/
structure PrivateMessage where
  User : User
  Message : String
deriving DecidableEq, Repr

/-- What a task does to the outside: a line printed on standard output, or a channel send. -/
inductive Effect
  | println (s : String)
  | send (sub : Chan) (v : responseMsg)
deriving DecidableEq, Repr

/-- The callback registered with `client.OnPrivateMessage` inside `listenForActivity`
(lines 36-42). The composite literal `responseMsg{user, msg}` has no field names, so its
values go to the fields in declaration order. -/
def onPrivateMessage (sub : Chan) (message : PrivateMessage) : List Effect :=
  let user := message.User.DisplayName
  let msg := message.Message
  [Effect.println message.Message, Effect.send sub (responseMsg.mk user msg)]

/-- The sends among a list of effects. -/
def sends : List Effect → List (Chan × responseMsg)
  | [] => []
  | Effect.send sub v :: es => (sub, v) :: sends es
  | Effect.println _ :: es => sends es

/-- The command `listenForActivity(sub)` (line 30), as the task the runtime starts. The task
registers the callback `onPrivateMessage` on its own client, joins the chat room and
connects; from then on the transport calls the callback once for each remote message (the
event `remote` of the runtime below). -/
def listenForActivity (sub : Chan) : Cmd := Cmd.listen sub

/-- The command `waitForActivity(sub)` (line 62). -/
def waitForActivity (sub : Chan) : Cmd := Cmd.wait sub

/-- The body of the task `waitForActivity(sub)` (line 64): one receive, and the received
value converted to `responseMsg` (the identity) as the message for `Update`. -/
def runWait (sub : Chan) (h : Heap) : Option (Msg × Heap) :=
  match recv sub h with
  | none => none
  | some (r, h1) => some (Msg.response r, h1)

/-! ## The widgets -/

/-- The settings `initialModel` applies to the new textarea, lines 81-99. -/
inductive TextareaSetting
  | Placeholder (s : String)
  | Focus
  | Prompt (s : String)
  | CharLimit (n : Nat)
  | SetWidth (n : Nat)
  | SetHeight (n : Nat)
  | FocusedStyleCursorLineNewStyle
  | ShowLineNumbers (b : Bool)
  | InsertNewlineSetEnabled (b : Bool)
deriving DecidableEq, Repr

/-- The library types and operations the program uses: `spinner`, `textarea`, `viewport`
(bubbles) and `lipgloss.Style`. -/
structure Widgets where
  Spinner : Type
  Viewport : Type
  Textarea : Type
  Style : Type
  spinnerZero : Spinner
  textareaNew : Textarea
  textareaSet : Textarea → TextareaSetting → Textarea
  textareaUpdate : Textarea → Msg → Textarea × WidgetCmd
  textareaValue : Textarea → String
  textareaReset : Textarea → Textarea
  textareaView : Textarea → String
  viewportNew : Nat → Nat → Viewport
  viewportSetContent : Viewport → String → Viewport
  viewportUpdate : Viewport → Msg → Viewport × WidgetCmd
  viewportGotoBottom : Viewport → Viewport
  viewportView : Viewport → String
  NewStyle : Style
  Foreground : Style → String → Style
  Render : Style → String → String

/-! ## The model -/

/-- The struct `model` (lines 68-77). -/
structure model (W : Widgets) where
  sub : Chan
  spinner : W.Spinner
  viewport : W.Viewport
  messages : List String
  textarea : W.Textarea
  senderStyle : W.Style
  err : Option GoError

/-- The function `initialModel` (lines 79-108). The composite literal names `textarea`,
`messages`, `viewport`, `senderStyle` and `err`; `sub` and `spinner` are not named and get
their zero values, which for a channel is nil. -/
def initialModel (W : Widgets) : model W :=
  let ta := W.textareaNew
  let ta := W.textareaSet ta (TextareaSetting.Placeholder "Send a message...")
  let ta := W.textareaSet ta TextareaSetting.Focus
  let ta := W.textareaSet ta (TextareaSetting.Prompt "┃ ")
  let ta := W.textareaSet ta (TextareaSetting.CharLimit 280)
  let ta := W.textareaSet ta (TextareaSetting.SetWidth 30)
  let ta := W.textareaSet ta (TextareaSetting.SetHeight 3)
  let ta := W.textareaSet ta TextareaSetting.FocusedStyleCursorLineNewStyle
  let ta := W.textareaSet ta (TextareaSetting.ShowLineNumbers false)
  let vp := W.viewportNew 30 5
  let vp := W.viewportSetContent vp
    "Welcome to the chat room!\nType a message and press Enter to send."
  let ta := W.textareaSet ta (TextareaSetting.InsertNewlineSetEnabled false)
  { sub := none
    spinner := W.spinnerZero
    textarea := ta
    messages := []
    viewport := vp
    senderStyle := W.Foreground W.NewStyle "5"
    err := none }

/-- The method `Init` (lines 110-115). -/
def Init {W : Widgets} (m : model W) : Cmd :=
  Cmd.Batch (listenForActivity m.sub) (waitForActivity m.sub)

/-- What one call of `Update` gives: the returned model and command, and the lines it
printed on standard output. -/
structure UpdateResult (W : Widgets) where
  model : model W
  cmd : Cmd
  stdout : List String

/-- The text `fmt.Sprintf("#%s: %s", msg.user, msg.msg)` of line 139. -/
def formatResponse (r : responseMsg) : String :=
  "#" ++ r.user ++ ": " ++ r.msg

/-- The method `Update` (lines 117-149). -/
def Update {W : Widgets} (m : model W) (msg : Msg) : UpdateResult W :=
  let ti := W.textareaUpdate m.textarea msg
  let vp := W.viewportUpdate m.viewport msg
  let tiCmd := ti.2
  let vpCmd := vp.2
  let m := { m with textarea := ti.1 }
  let m := { m with viewport := vp.1 }
  match msg with
  | Msg.key k =>
    match k.keyType with
    | KeyType.KeyCtrlC =>
      ⟨m, Cmd.Quit, [W.textareaValue m.textarea]⟩
    | KeyType.KeyEsc =>
      ⟨m, Cmd.Quit, [W.textareaValue m.textarea]⟩
    | KeyType.KeyEnter =>
      let m := { m with
        messages := m.messages ++ [W.Render m.senderStyle "You: " ++ W.textareaValue m.textarea] }
      let m := { m with
        viewport := W.viewportSetContent m.viewport (String.intercalate "\n" m.messages) }
      let m := { m with textarea := W.textareaReset m.textarea }
      let m := { m with viewport := W.viewportGotoBottom m.viewport }
      ⟨m, Cmd.Batch (Cmd.widget tiCmd) (Cmd.widget vpCmd), []⟩
    | _ =>
      ⟨m, Cmd.Batch (Cmd.widget tiCmd) (Cmd.widget vpCmd), []⟩
  | Msg.response r =>
    let m := { m with messages := m.messages ++ [W.Render m.senderStyle (formatResponse r)] }
    let m := { m with
      viewport := W.viewportSetContent m.viewport (String.intercalate "\n" m.messages) }
    ⟨m, waitForActivity m.sub, []⟩
  | Msg.err e =>
    let m := { m with err := some e }
    ⟨m, Cmd.nil, []⟩
  | Msg.other _ =>
    ⟨m, Cmd.Batch (Cmd.widget tiCmd) (Cmd.widget vpCmd), []⟩

/-- The method `View` (lines 177-183). -/
def View {W : Widgets} (m : model W) : String :=
  W.viewportView m.viewport ++ "\n\n" ++ W.textareaView m.textarea ++ "\n\n"

/-! ## The runtime -/

/-- The state of the running program: the model held by the runtime, the channels, the
wait tasks and listener tasks that have been started and have not returned (each with the
channel it uses), what was printed, whether a `tea.Quit` command was started
(`quitting`), and whether the runtime has taken the message of that command and ended the
loop (`quit`). -/
structure State (W : Widgets) where
  m : model W
  chans : Heap
  waits : List Chan
  listeners : List Chan
  stdout : List String
  quitting : Bool
  quit : Bool

/-- A message that reaches `Update` from outside the channel: a keystroke, an error value,
or any other message (window size, cursor blink, the result of a widget command). -/
inductive Input
  | key (k : KeyMsg)
  | err (e : GoError)
  | other (tag : Nat)
deriving DecidableEq, Repr

/-- The `tea.Msg` of an input. -/
def Input.toMsg : Input → Msg
  | Input.key k => Msg.key k
  | Input.err e => Msg.err e
  | Input.other t => Msg.other t

/-- Whether an input is a quit keystroke (Ctrl-C or Esc). -/
def Input.isQuit : Input → Bool
  | Input.key k => decide (k.keyType = KeyType.KeyCtrlC) || decide (k.keyType = KeyType.KeyEsc)
  | _ => false

/-- Whether an input is the submit keystroke (Enter). -/
def Input.isEnter : Input → Bool
  | Input.key k => decide (k.keyType = KeyType.KeyEnter)
  | _ => false

/-- One thing that happens: an input arrives, the pending wait task number `i` performs its
receive, the transport calls the callback of listener number `i` with a remote message, or
the runtime takes the message of a started `tea.Quit` command. -/
inductive Event
  | input (x : Input)
  | receive (i : Nat)
  | remote (i : Nat) (message : PrivateMessage)
  | quitMsg
deriving DecidableEq, Repr

/-- Whether an event is the arrival of the submit keystroke. -/
def Event.isEnter : Event → Bool
  | Event.input x => x.isEnter
  | _ => false

/-- The runtime starts the tasks of a command, `tea.Quit` among them; the tasks that were
pending stay pending. A widget command starts no task of this program. -/
def spawn {W : Widgets} (c : Cmd) (s : State W) : State W :=
  { s with
    waits := s.waits ++ c.waits
    listeners := s.listeners ++ c.listens
    quitting := s.quitting || c.quits }

/-- The runtime hands one message to `Update`, keeps the returned model and starts the
returned command. -/
def dispatch {W : Widgets} (s : State W) (msg : Msg) : State W :=
  let r := Update s.m msg
  spawn r.cmd { s with m := r.model, stdout := s.stdout ++ r.stdout }

/-- The effects of a callback applied to the state, in order; a send that blocks ends the
callback there. -/
def applyEffects {W : Widgets} : List Effect → State W → State W
  | [], s => s
  | Effect.println l :: es, s => applyEffects es { s with stdout := s.stdout ++ [l] }
  | Effect.send sub v :: es, s =>
    match send sub v s.chans with
    | none => s
    | some h => applyEffects es { s with chans := h }

/-- One step of the program. A started `tea.Quit` command ends nothing by itself: until the
runtime takes its message (`quitMsg`) inputs and receives go to `Update` as before; once it
has, the loop has ended and nothing happens. A receive that blocks, or an event for a task
that does not exist, leaves the state as it is. -/
def step {W : Widgets} (s : State W) (e : Event) : State W :=
  if s.quit then s else
  match e with
  | Event.quitMsg => if s.quitting then { s with quit := true } else s
  | Event.input x => dispatch s x.toMsg
  | Event.receive i =>
    match s.waits.get? i with
    | none => s
    | some sub =>
      match runWait sub s.chans with
      | none => s
      | some (msg, h) => dispatch { s with chans := h, waits := s.waits.eraseIdx i } msg
  | Event.remote i message =>
    match s.listeners.get? i with
    | none => s
    | some sub => applyEffects (onPrivateMessage sub message) s

/-- The state after a sequence of events. -/
def run {W : Widgets} (s : State W) (es : List Event) : State W :=
  es.foldl step s

/-- The program started on model `m` with channels `h`: the runtime starts the command of
`Init` (what `tea.NewProgram(m)` followed by `Run` does first). -/
def start {W : Widgets} (m : model W) (h : Heap) : State W :=
  spawn (Init m)
    { m := m, chans := h, waits := [], listeners := [], stdout := [], quitting := false,
      quit := false }

/-- The function `main` (lines 185-191): the program started on `initialModel()`, with no
value on any channel. -/
def main (W : Widgets) : State W :=
  start (initialModel W) (fun _ => [])

/-! ## A concrete set of widgets

A small stand-in for the library widgets, used to evaluate the program on concrete inputs:
the textarea holds its text and whether Enter inserts a newline, the viewport holds its
content and whether it shows the bottom, and styling leaves the text as it is. -/

/-- The text of the stand-in textarea and whether the Enter key inserts a newline. -/
structure PlainTextarea where
  value : String
  insertNewline : Bool
deriving DecidableEq, Repr

/-- The content of the stand-in viewport and whether it is scrolled to the bottom. -/
structure PlainViewport where
  content : String
  atBottom : Bool
deriving DecidableEq, Repr

/-- The stand-in textarea handles a message: runes are appended to the text, Enter appends
a newline when that is enabled, everything else leaves the text as it is. -/
def plainTextareaUpdate (t : PlainTextarea) (msg : Msg) : PlainTextarea × WidgetCmd :=
  match msg with
  | Msg.key k =>
    match k.keyType with
    | KeyType.KeyRunes => ({ t with value := t.value ++ String.mk k.Runes }, 0)
    | KeyType.KeyEnter =>
      if t.insertNewline then ({ t with value := t.value ++ "\n" }, 0) else (t, 0)
    | _ => (t, 0)
  | _ => (t, 0)

/-- The stand-in textarea takes a setting: only the newline switch is kept. -/
def plainTextareaSet (t : PlainTextarea) : TextareaSetting → PlainTextarea
  | TextareaSetting.InsertNewlineSetEnabled b => { t with insertNewline := b }
  | _ => t

/-- The stand-in widgets. -/
def plain : Widgets where
  Spinner := Unit
  Viewport := PlainViewport
  Textarea := PlainTextarea
  Style := Unit
  spinnerZero := ()
  textareaNew := ⟨"", true⟩
  textareaSet := plainTextareaSet
  textareaUpdate := plainTextareaUpdate
  textareaValue := fun t => t.value
  textareaReset := fun t => { t with value := "" }
  textareaView := fun t => t.value
  viewportNew := fun _ _ => ⟨"", false⟩
  viewportSetContent := fun v c => { v with content := c }
  viewportUpdate := fun v _ => (v, 0)
  viewportGotoBottom := fun v => { v with atBottom := true }
  viewportView := fun v => v.content
  NewStyle := ()
  Foreground := fun _ _ => ()
  Render := fun _ s => s

/-- The keystroke that types the text `s`. -/
def typed (s : String) : KeyMsg := ⟨KeyType.KeyRunes, s.toList, false⟩

/-- The Enter keystroke. -/
def enterKey : KeyMsg := ⟨KeyType.KeyEnter, [], false⟩

/-- The Ctrl-C keystroke. -/
def ctrlCKey : KeyMsg := ⟨KeyType.KeyCtrlC, [], false⟩

/-- The Esc keystroke. -/
def escKey : KeyMsg := ⟨KeyType.KeyEsc, [], false⟩

/-- The model `initialModel()` with its channel field replaced by `sub`. -/
def modelOn (W : Widgets) (sub : Chan) : model W :=
  { initialModel W with sub := sub }

/-- The heap in which channel object `c` holds `q` and every other channel is empty. -/
def heapWith (c : Nat) (q : List responseMsg) : Heap :=
  Function.update (fun _ => []) c q

/-! ## Predicates on states -/

/-- The single-consumer state: exactly one wait task and one listener task, both on the
channel of the model. -/
def Armed {W : Widgets} (c : Chan) (s : State W) : Prop :=
  s.waits = [c] ∧ s.listeners = [c] ∧ s.m.sub = c

/-- The line `Update` appends for a `responseMsg`, in the style of the model. -/
def rendering {W : Widgets} (m : model W) (r : responseMsg) : String :=
  W.Render m.senderStyle (formatResponse r)

/-- The dispatch cycle is running on channel object `c`: the process has not quit and the
one pending wait task and the model both use `c`. -/
def Cycling {W : Widgets} (c : Nat) (s : State W) : Prop :=
  s.quit = false ∧ s.waits = [some c] ∧ s.m.sub = some c

/-! ## Concrete inputs -/

/-- One hundred events of one sender; the body of event number `i` is `i` letters x. -/
def hundredEvents : List responseMsg :=
  (List.range 100).map (fun i => { user := "u", msg := String.mk (List.replicate i 'x') })

/-! ## What `Update` returns, case by case -/

theorem Update_response {W : Widgets} (m : model W) (r : responseMsg) :
    Update m (Msg.response r) =
      ⟨{ m with
          textarea := (W.textareaUpdate m.textarea (Msg.response r)).1
          messages := m.messages ++ [W.Render m.senderStyle (formatResponse r)]
          viewport := W.viewportSetContent (W.viewportUpdate m.viewport (Msg.response r)).1
            (String.intercalate "\n"
              (m.messages ++ [W.Render m.senderStyle (formatResponse r)])) },
        Cmd.wait m.sub, []⟩ := rfl

theorem Update_err {W : Widgets} (m : model W) (e : GoError) :
    Update m (Msg.err e) =
      ⟨{ m with
          textarea := (W.textareaUpdate m.textarea (Msg.err e)).1
          viewport := (W.viewportUpdate m.viewport (Msg.err e)).1
          err := some e },
        Cmd.nil, []⟩ := rfl

theorem Update_other {W : Widgets} (m : model W) (t : Nat) :
    Update m (Msg.other t) =
      ⟨{ m with
          textarea := (W.textareaUpdate m.textarea (Msg.other t)).1
          viewport := (W.viewportUpdate m.viewport (Msg.other t)).1 },
        Cmd.Batch (Cmd.widget (W.textareaUpdate m.textarea (Msg.other t)).2)
          (Cmd.widget (W.viewportUpdate m.viewport (Msg.other t)).2), []⟩ := rfl

theorem Update_quit {W : Widgets} (m : model W) (k : KeyMsg)
    (hk : k.keyType = KeyType.KeyCtrlC ∨ k.keyType = KeyType.KeyEsc) :
    Update m (Msg.key k) =
      ⟨{ m with
          textarea := (W.textareaUpdate m.textarea (Msg.key k)).1
          viewport := (W.viewportUpdate m.viewport (Msg.key k)).1 },
        Cmd.Quit, [W.textareaValue (W.textareaUpdate m.textarea (Msg.key k)).1]⟩ := by
  rcases hk with hk | hk <;> simp [Update, hk]

theorem Update_enter {W : Widgets} (m : model W) (k : KeyMsg)
    (hk : k.keyType = KeyType.KeyEnter) :
    Update m (Msg.key k) =
      ⟨{ m with
          messages := m.messages ++ [W.Render m.senderStyle "You: " ++
            W.textareaValue (W.textareaUpdate m.textarea (Msg.key k)).1]
          textarea := W.textareaReset (W.textareaUpdate m.textarea (Msg.key k)).1
          viewport := W.viewportGotoBottom
            (W.viewportSetContent (W.viewportUpdate m.viewport (Msg.key k)).1
              (String.intercalate "\n"
                (m.messages ++ [W.Render m.senderStyle "You: " ++
                  W.textareaValue (W.textareaUpdate m.textarea (Msg.key k)).1]))) },
        Cmd.Batch (Cmd.widget (W.textareaUpdate m.textarea (Msg.key k)).2)
          (Cmd.widget (W.viewportUpdate m.viewport (Msg.key k)).2), []⟩ := by
  simp [Update, hk]

theorem Update_key_other {W : Widgets} (m : model W) (k : KeyMsg)
    (h1 : k.keyType ≠ KeyType.KeyCtrlC) (h2 : k.keyType ≠ KeyType.KeyEsc)
    (h3 : k.keyType ≠ KeyType.KeyEnter) :
    Update m (Msg.key k) =
      ⟨{ m with
          textarea := (W.textareaUpdate m.textarea (Msg.key k)).1
          viewport := (W.viewportUpdate m.viewport (Msg.key k)).1 },
        Cmd.Batch (Cmd.widget (W.textareaUpdate m.textarea (Msg.key k)).2)
          (Cmd.widget (W.viewportUpdate m.viewport (Msg.key k)).2), []⟩ := by
  unfold Update
  split <;> simp_all

/-- Every key is a quit key, the Enter key, or another key. -/
theorem KeyMsg.cases3 (k : KeyMsg) :
    (k.keyType = KeyType.KeyCtrlC ∨ k.keyType = KeyType.KeyEsc) ∨
      k.keyType = KeyType.KeyEnter ∨
      (k.keyType ≠ KeyType.KeyCtrlC ∧ k.keyType ≠ KeyType.KeyEsc ∧
        k.keyType ≠ KeyType.KeyEnter) := by
  cases h : k.keyType <;> simp

/-- The channel field is the same after every call of `Update`. -/
theorem Update_sub {W : Widgets} (m : model W) (msg : Msg) :
    (Update m msg).model.sub = m.sub := by
  cases msg with
  | key k =>
    rcases KeyMsg.cases3 k with h | h | ⟨h1, h2, h3⟩
    · rw [Update_quit m k h]
    · rw [Update_enter m k h]
    · rw [Update_key_other m k h1 h2 h3]
  | response r => rfl
  | err e => rfl
  | other t => rfl

/-- No call of `Update` returns a listener task. -/
theorem Update_listens {W : Widgets} (m : model W) (msg : Msg) :
    (Update m msg).cmd.listens = [] := by
  cases msg with
  | key k =>
    rcases KeyMsg.cases3 k with h | h | ⟨h1, h2, h3⟩
    · rw [Update_quit m k h]; rfl
    · rw [Update_enter m k h]; rfl
    · rw [Update_key_other m k h1 h2 h3]; rfl
  | response r => rfl
  | err e => rfl
  | other t => rfl

/-- A call of `Update` on an input that did not come from the channel returns no wait
task. -/
theorem Update_input_waits {W : Widgets} (m : model W) (x : Input) :
    (Update m x.toMsg).cmd.waits = [] := by
  cases x with
  | key k =>
    rcases KeyMsg.cases3 k with h | h | ⟨h1, h2, h3⟩
    · simp only [Input.toMsg]; rw [Update_quit m k h]; rfl
    · simp only [Input.toMsg]; rw [Update_enter m k h]; rfl
    · simp only [Input.toMsg]; rw [Update_key_other m k h1 h2 h3]; rfl
  | err e => rfl
  | other t => rfl

/-! ## The runtime, step by step -/

theorem run_cons {W : Widgets} (s : State W) (e : Event) (es : List Event) :
    run s (e :: es) = run (step s e) es := rfl

/-- A callback leaves the model, the tasks and the quit flag as they are. -/
theorem applyEffects_frame {W : Widgets} (es : List Effect) (s : State W) :
    (applyEffects es s).m = s.m ∧ (applyEffects es s).waits = s.waits ∧
      (applyEffects es s).listeners = s.listeners ∧ (applyEffects es s).quit = s.quit := by
  induction es generalizing s with
  | nil => simp [applyEffects]
  | cons e es ih =>
    cases e with
    | println l => simp only [applyEffects]; exact ih _
    | send sub v =>
      simp only [applyEffects]
      split
      · simp
      · exact ih _

/-- A wait task that returns has taken the oldest value of its channel and returns it as
a `responseMsg`. -/
theorem runWait_some {sub : Chan} {h h1 : Heap} {msg : Msg}
    (hr : runWait sub h = some (msg, h1)) :
    ∃ c x q, sub = some c ∧ h c = x :: q ∧ msg = Msg.response x ∧
      h1 = Function.update h c q := by
  cases sub with
  | none => simp [runWait, recv] at hr
  | some c =>
    cases hc : h c with
    | nil => simp [runWait, recv, hc] at hr
    | cons x q =>
      simp [runWait, recv, hc] at hr
      exact ⟨c, x, q, rfl, hc, hr.1.symm, hr.2.symm⟩

/-- The wait task on a channel with a value takes the oldest one. -/
theorem runWait_cons (c : Nat) (h : Heap) (x : responseMsg) (q : List responseMsg)
    (hc : h c = x :: q) :
    runWait (some c) h = some (Msg.response x, Function.update h c q) := by
  simp [runWait, recv, hc]

/-- The wait task on a channel without a value blocks. -/
theorem runWait_nil (c : Nat) (h : Heap) (hc : h c = []) : runWait (some c) h = none := by
  simp [runWait, recv, hc]

theorem start_armed {W : Widgets} (m : model W) (h : Heap) : Armed m.sub (start m h) := by
  simp [Armed, start, spawn, Init, listenForActivity, waitForActivity, Cmd.waits, Cmd.listens]

theorem step_armed {W : Widgets} (c : Chan) (s : State W) (e : Event) (hs : Armed c s) :
    Armed c (step s e) := by
  obtain ⟨hw, hl, hm⟩ := hs
  unfold step
  split
  · exact ⟨hw, hl, hm⟩
  · cases e with
    | input x =>
      simp only [dispatch, spawn, Armed]
      rw [Update_input_waits, Update_listens, Update_sub]
      simp [hw, hl, hm]
    | receive i =>
      simp only
      cases hi : s.waits.get? i with
      | none => exact ⟨hw, hl, hm⟩
      | some sub =>
        simp only
        cases hr : runWait sub s.chans with
        | none => exact ⟨hw, hl, hm⟩
        | some p =>
          obtain ⟨msg, h1⟩ := p
          obtain ⟨c1, x, q, -, -, rfl, -⟩ := runWait_some hr
          have hi0 : i = 0 := by
            rw [hw] at hi
            cases i with
            | zero => rfl
            | succ n => simp at hi
          subst hi0
          simp only [dispatch, spawn, Armed]
          rw [Update_listens, Update_sub, Update_response]
          simp [hw, hl, hm, Cmd.waits]
    | remote i message =>
      simp only
      cases hi : s.listeners.get? i with
      | none => exact ⟨hw, hl, hm⟩
      | some sub =>
        obtain ⟨h1, h2, h3, -⟩ := applyEffects_frame (onPrivateMessage sub message) s
        simp only [Armed]
        rw [h1, h2, h3]
        exact ⟨hw, hl, hm⟩
    | quitMsg =>
      simp only
      split <;> exact ⟨hw, hl, hm⟩

theorem run_armed {W : Widgets} (c : Chan) (es : List Event) (s : State W) (hs : Armed c s) :
    Armed c (run s es) := by
  induction es generalizing s with
  | nil => exact hs
  | cons e es ih => rw [run_cons]; exact ih _ (step_armed c s e hs)

/-! ## Ordering -/

theorem start_cycling {W : Widgets} (m : model W) (h : Heap) (c : Nat) (hsub : m.sub = some c) :
    Cycling c (start m h) := by
  simp [Cycling, start, spawn, Init, listenForActivity, waitForActivity, Cmd.waits,
    Cmd.quits, hsub]

/-- The receive of the pending wait task when the channel holds a value: the oldest value
leaves the channel, its rendering goes to the end of the history, and a wait task is
pending again. -/
theorem step_receive_cons {W : Widgets} (c : Nat) (s : State W) (x : responseMsg)
    (q : List responseMsg) (hs : Cycling c s) (hc : s.chans c = x :: q) :
    Cycling c (step s (Event.receive 0)) ∧
      (step s (Event.receive 0)).chans c = q ∧
      (step s (Event.receive 0)).m.messages = s.m.messages ++ [rendering s.m x] ∧
      (step s (Event.receive 0)).m.senderStyle = s.m.senderStyle := by
  obtain ⟨hq, hw, hm⟩ := hs
  have hstep : step s (Event.receive 0) =
      dispatch { s with chans := Function.update s.chans c q, waits := [] }
        (Msg.response x) := by
    simp [step, hq, hw, runWait_cons c s.chans x q hc]
  rw [hstep]
  simp [Cycling, dispatch, spawn, Update_response, Cmd.waits, Cmd.quits, hq, hm, rendering]

/-- The receive of the pending wait task when the channel holds nothing: it blocks. -/
theorem step_receive_nil {W : Widgets} (c : Nat) (s : State W)
    (hs : Cycling c s) (hc : s.chans c = []) :
    step s (Event.receive 0) = s := by
  obtain ⟨hq, hw, hm⟩ := hs
  simp [step, hq, hw, runWait_nil c s.chans hc]

/-- An input that is not a quit keystroke: the channels are as before, the history grows by
one line for Enter and by none otherwise, and the wait task stays pending. -/
theorem step_input {W : Widgets} (c : Nat) (s : State W) (x : Input)
    (hs : Cycling c s) (hx : x.isQuit = false) :
    Cycling c (step s (Event.input x)) ∧
      (step s (Event.input x)).chans = s.chans ∧
      (step s (Event.input x)).m.senderStyle = s.m.senderStyle ∧
      ∃ l, (step s (Event.input x)).m.messages = s.m.messages ++ l ∧
        l.length = (if x.isEnter then 1 else 0) := by
  obtain ⟨hq, hw, hm⟩ := hs
  have hstep : step s (Event.input x) = dispatch s x.toMsg := by
    simp [step, hq]
  rw [hstep]
  cases x with
  | key k =>
    rcases KeyMsg.cases3 k with h | h | ⟨h1, h2, h3⟩
    · rcases h with h | h <;> simp [Input.isQuit, h] at hx
    · simp only [Input.toMsg, dispatch, spawn, Cycling]
      rw [Update_enter s.m k h]
      simp [Cmd.waits, Cmd.quits, hq, hw, hm, Input.isEnter, h]
    · simp only [Input.toMsg, dispatch, spawn, Cycling]
      rw [Update_key_other s.m k h1 h2 h3]
      simp [Cmd.waits, Cmd.quits, hq, hw, hm, Input.isEnter, h3]
  | err e =>
    simp [Input.toMsg, dispatch, spawn, Cycling, Update_err, Cmd.waits, Cmd.quits, hq, hw, hm,
      Input.isEnter]
  | other t =>
    simp [Input.toMsg, dispatch, spawn, Cycling, Update_other, Cmd.waits, Cmd.quits, hq, hw,
      hm, Input.isEnter]

/-- The history and the channel after any schedule of receives and non-quit inputs: the
receives took the oldest values of the channel, and the history holds what it held followed
by their renderings, in order, with one further line for each Enter keystroke. -/
theorem run_ordering {W : Widgets} (c : Nat) (sched : List Event) :
    ∀ s : State W, Cycling c s →
      (∀ e ∈ sched, e = Event.receive 0 ∨ ∃ x, e = Event.input x ∧ x.isQuit = false) →
      Cycling c (run s sched) ∧
      (run s sched).chans c = (s.chans c).drop (sched.count (Event.receive 0)) ∧
      (s.m.messages ++ ((s.chans c).take (sched.count (Event.receive 0))).map
        (rendering s.m)).Sublist (run s sched).m.messages ∧
      (run s sched).m.messages.length =
        s.m.messages.length + ((s.chans c).take (sched.count (Event.receive 0))).length +
          sched.countP Event.isEnter := by
  induction sched with
  | nil =>
    intro s hs _
    simp [run, hs]
  | cons e sched ih =>
    intro s hs hall
    have hrest : ∀ e ∈ sched,
        e = Event.receive 0 ∨ ∃ x, e = Event.input x ∧ x.isQuit = false :=
      fun e he => hall e (List.mem_cons_of_mem _ he)
    rw [run_cons]
    rcases hall e (List.mem_cons_self _ _) with he | ⟨x, he, hx⟩
    · subst he
      have hcount : (Event.receive 0 :: sched).count (Event.receive 0) =
          sched.count (Event.receive 0) + 1 := by simp
      have henter : (Event.receive 0 :: sched).countP Event.isEnter =
          sched.countP Event.isEnter := by simp [Event.isEnter]
      rw [hcount, henter]
      cases hc : s.chans c with
      | nil =>
        rw [step_receive_nil c s hs hc]
        have := ih s hs hrest
        simpa [hc] using this
      | cons y q =>
        obtain ⟨h1, h2, h3, h4⟩ := step_receive_cons c s y q hs hc
        obtain ⟨i1, i2, i3, i4⟩ := ih _ h1 hrest
        have hr : rendering (step s (Event.receive 0)).m = rendering s.m := by
          funext r; simp [rendering, h4]
        rw [h2, h3, hr] at i3
        rw [h2, h3] at i4
        rw [h2] at i2
        refine ⟨i1, ?_, ?_, ?_⟩
        · simpa using i2
        · simpa using i3
        · simp at i4 ⊢; omega
    · subst he
      have hcount : (Event.input x :: sched).count (Event.receive 0) =
          sched.count (Event.receive 0) := by simp
      have henter : (Event.input x :: sched).countP Event.isEnter =
          sched.countP Event.isEnter + (if x.isEnter then 1 else 0) := by
        simp [List.countP_cons, Event.isEnter]
      rw [hcount, henter]
      obtain ⟨h1, h2, h4, l, h3, hl⟩ := step_input c s x hs hx
      obtain ⟨i1, i2, i3, i4⟩ := ih _ h1 hrest
      have hr : rendering (step s (Event.input x)).m = rendering s.m := by
        funext r; simp [rendering, h4]
      rw [h2, h3, hr] at i3
      rw [h2, h3] at i4
      rw [h2] at i2
      refine ⟨i1, i2, ?_, ?_⟩
      · refine List.Sublist.trans ?_ i3
        rw [List.append_assoc]
        exact List.Sublist.append (List.Sublist.refl _)
          (List.sublist_append_right _ _)
      · simp at i4 ⊢; omega

/-- On the nil channel nothing is ever sent or received: every step leaves the channels as
they are. -/
theorem step_nil_chans {W : Widgets} (s : State W) (e : Event) (hs : Armed none s) :
    (step s e).chans = s.chans := by
  obtain ⟨hw, hl, hm⟩ := hs
  unfold step
  split
  · rfl
  · cases e with
    | input x => rfl
    | receive i =>
      cases i with
      | zero => simp [hw, runWait, recv]
      | succ n => simp [hw]
    | remote i message =>
      cases i with
      | zero => simp [hl, onPrivateMessage, applyEffects, send]
      | succ n => simp [hl]
    | quitMsg =>
      simp only
      split <;> rfl

theorem run_nil_chans {W : Widgets} (es : List Event) (s : State W) (hs : Armed none s) :
    (run s es).chans = s.chans := by
  induction es generalizing s with
  | nil => rfl
  | cons e es ih =>
    rw [run_cons, ih _ (step_armed none s e hs), step_nil_chans s e hs]

/-! ## The claims -/

/-- C1, as stated, fails: with styling that leaves the text as it is, `Update` on the
event with sender alice and body hi does not append the line alice: hi. -/
theorem C1_counterexample :
    (Update (modelOn plain none) (Msg.response { user := "alice", msg := "hi" })).model.messages ≠
      (modelOn plain none).messages ++ ["alice" ++ ": " ++ "hi"] := by
  decide

/-- C1, amended: for every model and every event with sender `user` and body `msg`, `Update`
returns a model whose history is the old history with exactly one line appended at the end,
the styled text of a hash sign, the sender, a colon and a space, and the body. Processing
alice/hi and then bob/yo from an empty history gives the two lines with the hash sign, in
that order. -/
theorem C1_response_appends_line {W : Widgets} (m : model W) (r : responseMsg) :
    (Update m (Msg.response r)).model.messages =
        m.messages ++ [W.Render m.senderStyle ("#" ++ r.user ++ ": " ++ r.msg)] ∧
      (Update (Update (modelOn plain none)
          (Msg.response { user := "alice", msg := "hi" })).model
          (Msg.response { user := "bob", msg := "yo" })).model.messages =
        ["#alice: hi", "#bob: yo"] :=
  ⟨rfl, by decide⟩

/-- C2: the callback performs exactly one send, on the channel of the listener, but the
value it sends has the display name in its field `msg` and the message text in its field
`user`. For the remote message of alice with text hi the event sent has user hi and msg
alice, and the line that reaches the history reads hi as the sender. -/
theorem C2_callback_swaps_fields :
    (∀ (sub : Chan) (message : PrivateMessage),
        sends (onPrivateMessage sub message) =
          [(sub, { msg := message.User.DisplayName, user := message.Message })]) ∧
      sends (onPrivateMessage (some 0) { User := { DisplayName := "alice" }, Message := "hi" }) =
        [(some 0, { user := "hi", msg := "alice" })] ∧
      (run (start (modelOn plain (some 0)) (heapWith 0 []))
          [Event.remote 0 { User := { DisplayName := "alice" }, Message := "hi" },
            Event.receive 0]).m.messages = ["#hi: alice"] :=
  ⟨fun _ _ => rfl, by decide, by decide⟩

/-- C3: the model returned by `initialModel` holds the nil channel. The program started on
it has its wait task and its listener task on the nil channel, where every send and every
receive blocks, and whatever happens no value is ever on any channel. -/
theorem C3_initialModel_channel_is_nil (W : Widgets) :
    (initialModel W).sub = none ∧
      Init (initialModel W) = Cmd.Batch (Cmd.listen none) (Cmd.wait none) ∧
      (∀ (v : responseMsg) (h : Heap), send (initialModel W).sub v h = none) ∧
      (∀ h : Heap, runWait (initialModel W).sub h = none) ∧
      (∀ (sched : List Event) (c : Nat), (run (main W) sched).chans c = []) := by
  refine ⟨rfl, rfl, fun _ _ => rfl, fun _ => rfl, fun sched c => ?_⟩
  have h := run_nil_chans sched (main W) (start_armed (initialModel W) (fun _ => []))
  rw [h]
  rfl

/-- C4: for every model and every event, the command `Update` returns is the one wait task
on the channel of the model and nothing else (no listener, no quit), the returned model
keeps the channel, and the wait task on a channel whose oldest value is `x` takes exactly
that one value off the channel and yields `x` unchanged. -/
theorem C4_rearm {W : Widgets} (m : model W) (r : responseMsg) :
    (Update m (Msg.response r)).cmd = waitForActivity m.sub ∧
      (Update m (Msg.response r)).cmd.waits = [m.sub] ∧
      (Update m (Msg.response r)).cmd.listens = [] ∧
      (Update m (Msg.response r)).cmd.quits = false ∧
      (Update m (Msg.response r)).model.sub = m.sub ∧
      (∀ (c : Nat) (h : Heap) (x : responseMsg) (q : List responseMsg),
        runWait (some c) (Function.update h c (x :: q)) =
          some (Msg.response x, Function.update h c q)) := by
  refine ⟨rfl, rfl, rfl, rfl, rfl, fun c h x q => ?_⟩
  rw [runWait_cons c _ x q (by simp)]
  simp

/-- C5: let the channel of the model hold the events `es`, oldest first, when the program
starts. After `k` receives of the wait task the history is the old history followed by the
renderings of the first `k` events, in order, and the channel holds the remaining ones; so
after exactly as many receives as there are events the history is the old history followed
by the renderings of all of them, each once, and the channel is empty. When inputs other
than a quit keystroke are interleaved with that many receives, the old history followed by
all the renderings is a subsequence of the final history, the only further lines are one
per Enter keystroke, and the channel is empty. -/
theorem C5_ordering {W : Widgets} (m : model W) (c : Nat) (h : Heap) (es : List responseMsg)
    (hsub : m.sub = some c) (hq : h c = es) :
    (∀ k : Nat,
        (run (start m h) (List.replicate k (Event.receive 0))).m.messages =
            m.messages ++ (es.take k).map (rendering m) ∧
          (run (start m h) (List.replicate k (Event.receive 0))).chans c = es.drop k ∧
          (run (start m h) (List.replicate k (Event.receive 0))).waits = [some c]) ∧
      (run (start m h) (List.replicate es.length (Event.receive 0))).m.messages =
        m.messages ++ es.map (rendering m) ∧
      (run (start m h) (List.replicate es.length (Event.receive 0))).chans c = [] ∧
      (∀ sched : List Event,
        (∀ e ∈ sched, e = Event.receive 0 ∨ ∃ x, e = Event.input x ∧ x.isQuit = false) →
        sched.count (Event.receive 0) = es.length →
          (m.messages ++ es.map (rendering m)).Sublist (run (start m h) sched).m.messages ∧
            (run (start m h) sched).m.messages.length =
              m.messages.length + es.length + sched.countP Event.isEnter ∧
            (run (start m h) sched).chans c = [] ∧
            (run (start m h) sched).waits = [some c]) := by
  have hs : Cycling c (start m h) := start_cycling m h c hsub
  have hm : (start m h).m = m := rfl
  have hc : (start m h).chans c = es := hq
  have ticks : ∀ k : Nat,
      (run (start m h) (List.replicate k (Event.receive 0))).m.messages =
          m.messages ++ (es.take k).map (rendering m) ∧
        (run (start m h) (List.replicate k (Event.receive 0))).chans c = es.drop k ∧
        (run (start m h) (List.replicate k (Event.receive 0))).waits = [some c] := by
    intro k
    have hall : ∀ e ∈ List.replicate k (Event.receive 0),
        e = Event.receive 0 ∨ ∃ x, e = Event.input x ∧ x.isQuit = false :=
      fun e he => Or.inl (List.eq_of_mem_replicate he)
    obtain ⟨i1, i2, i3, i4⟩ := run_ordering c _ (start m h) hs hall
    have hk : (List.replicate k (Event.receive 0)).count (Event.receive 0) = k := by simp
    have he : (List.replicate k (Event.receive 0)).countP Event.isEnter = 0 := by
      simp [List.countP_eq_zero, Event.isEnter]
    rw [hk, hc] at i2
    rw [hk, hc, hm] at i3 i4
    rw [he] at i4
    refine ⟨?_, i2, i1.2.1⟩
    exact (i3.eq_of_length (by simpa using i4.symm)).symm
  refine ⟨ticks, ?_, ?_, ?_⟩
  · simpa using (ticks es.length).1
  · simpa using (ticks es.length).2.1
  · intro sched hall hcount
    obtain ⟨i1, i2, i3, i4⟩ := run_ordering c sched (start m h) hs hall
    rw [hcount, hc] at i2
    rw [hcount, hc, hm] at i3 i4
    refine ⟨by simpa using i3, by simpa using i4, by simpa using i2, i1.2.1⟩

/-- C5 on concrete runs: two events on channel 0, the same with the user typing and
submitting a line between the two receives, and one hundred events taken by one hundred
receives. -/
theorem C5_ordering_witness :
    hundredEvents.length = 100 ∧
    (run (start (modelOn plain (some 0)) (heapWith 0 hundredEvents))
      (List.replicate 100 (Event.receive 0))).m.messages =
        hundredEvents.map (rendering (modelOn plain (some 0))) ∧
    (run (start (modelOn plain (some 0)) (heapWith 0 hundredEvents))
      (List.replicate 100 (Event.receive 0))).chans 0 = [] ∧
    (run (start (modelOn plain (some 0))
        (heapWith 0 [{ user := "alice", msg := "hi" }, { user := "bob", msg := "yo" }]))
      (List.replicate 2 (Event.receive 0))).m.messages = ["#alice: hi", "#bob: yo"] ∧
    (["#alice: hi", "#bob: yo"] : List String).Sublist
      (run (start (modelOn plain (some 0))
        (heapWith 0 [{ user := "alice", msg := "hi" }, { user := "bob", msg := "yo" }]))
        [Event.receive 0, Event.input (Input.key (typed "hello")),
          Event.input (Input.key enterKey), Event.receive 0]).m.messages :=
by
  have hlen : hundredEvents.length = 100 := by simp [hundredEvents]
  have h100 := C5_ordering (modelOn plain (some 0)) 0 (heapWith 0 hundredEvents)
    hundredEvents rfl rfl
  have h2 := C5_ordering (modelOn plain (some 0)) 0
    (heapWith 0 [{ user := "alice", msg := "hi" }, { user := "bob", msg := "yo" }])
    [{ user := "alice", msg := "hi" }, { user := "bob", msg := "yo" }] rfl rfl
  have hsched : ∀ e ∈ [Event.receive 0, Event.input (Input.key (typed "hello")),
      Event.input (Input.key enterKey), Event.receive 0],
      e = Event.receive 0 ∨ ∃ x, e = Event.input x ∧ x.isQuit = false := by
    intro e he
    simp only [List.mem_cons, List.mem_singleton, List.not_mem_nil, or_false] at he
    rcases he with rfl | rfl | rfl | rfl
    · exact Or.inl rfl
    · exact Or.inr ⟨_, rfl, rfl⟩
    · exact Or.inr ⟨_, rfl, rfl⟩
    · exact Or.inl rfl
  refine ⟨hlen, ?_, ?_, h2.2.1, (h2.2.2.2 _ hsched (by decide)).1⟩
  · have h := h100.2.1
    rw [hlen] at h
    rw [h]
    rfl
  · have h := h100.2.2.1
    rw [hlen] at h
    exact h

/-- C6: from the start of the program on any model and any channels, after any sequence of
inputs, receives and remote messages, exactly one wait task is pending (so at most one) and
exactly one listener task is running, both on the channel of the model. `Init` issues one
wait task and one listener task; `Update` on an event from the channel issues one wait
task; `Update` on any other input issues none; `Update` never issues a listener task. -/
theorem C6_single_consumer {W : Widgets} (m : model W) (h : Heap) (sched : List Event) :
    (run (start m h) sched).waits.length ≤ 1 ∧
      (run (start m h) sched).waits = [m.sub] ∧
      (run (start m h) sched).listeners = [m.sub] ∧
      (Init m).waits = [m.sub] ∧
      (Init m).listens = [m.sub] ∧
      (∀ (m1 : model W) (r : responseMsg), (Update m1 (Msg.response r)).cmd.waits = [m1.sub]) ∧
      (∀ (m1 : model W) (x : Input), (Update m1 x.toMsg).cmd.waits = []) ∧
      (∀ (m1 : model W) (msg : Msg), (Update m1 msg).cmd.listens = []) := by
  obtain ⟨hw, hl, -⟩ := run_armed m.sub sched (start m h) (start_armed m h)
  refine ⟨by simp [hw], hw, hl, rfl, rfl, fun _ _ => rfl, Update_input_waits, Update_listens⟩

/-- C7: let `s` be a running state whose model holds text `t` in its input buffer, and let
the input widget keep its text when it is handed the Enter key (what line 99 configures) and
hold the empty text after `Reset`. The Enter keystroke then returns a model whose history is
the old history with the one line of the styled You: followed by `t`, whose input buffer is
empty and whose viewport got the joined history and `GotoBottom`; the model keeps its
channel and the command issues no wait task and no listener. The step of the runtime gives
this same model whatever the channels hold, and leaves the channels and the pending tasks
as they are. -/
theorem C7_submit {W : Widgets} (s : State W) (k : KeyMsg)
    (hk : k.keyType = KeyType.KeyEnter) (hq : s.quit = false)
    (hkeep : W.textareaValue (W.textareaUpdate s.m.textarea (Msg.key k)).1 =
      W.textareaValue s.m.textarea)
    (hreset : ∀ t : W.Textarea, W.textareaValue (W.textareaReset t) = "") :
    (Update s.m (Msg.key k)).model.messages =
        s.m.messages ++ [W.Render s.m.senderStyle "You: " ++ W.textareaValue s.m.textarea] ∧
      W.textareaValue (Update s.m (Msg.key k)).model.textarea = "" ∧
      (Update s.m (Msg.key k)).model.viewport =
        W.viewportGotoBottom
          (W.viewportSetContent (W.viewportUpdate s.m.viewport (Msg.key k)).1
            (String.intercalate "\n" (Update s.m (Msg.key k)).model.messages)) ∧
      (Update s.m (Msg.key k)).model.sub = s.m.sub ∧
      (Update s.m (Msg.key k)).cmd.waits = [] ∧
      (Update s.m (Msg.key k)).cmd.listens = [] ∧
      (Update s.m (Msg.key k)).cmd.quits = false ∧
      (∀ h : Heap,
        (step { s with chans := h } (Event.input (Input.key k))).m =
            (Update s.m (Msg.key k)).model ∧
          (step { s with chans := h } (Event.input (Input.key k))).chans = h ∧
          (step { s with chans := h } (Event.input (Input.key k))).waits = s.waits ∧
          (step { s with chans := h } (Event.input (Input.key k))).listeners = s.listeners) := by
  rw [Update_enter s.m k hk]
  refine ⟨by simp [hkeep], hreset _, rfl, rfl, rfl, rfl, rfl, fun h => ?_⟩
  simp [step, hq, dispatch, spawn, Input.toMsg, Update_enter s.m k hk, Cmd.waits, Cmd.listens]

/-- C7 on a concrete run: from the program started on `initialModel()`, typing hello and
pressing Enter gives the history with the one line You: hello and an empty input buffer,
and an event processed afterwards leaves that first line in place. -/
theorem C7_submit_witness :
    (run (main plain) [Event.input (Input.key (typed "hello"))]).quit = false ∧
    plain.textareaValue
      (run (main plain) [Event.input (Input.key (typed "hello"))]).m.textarea = "hello" ∧
    (Update (run (main plain) [Event.input (Input.key (typed "hello"))]).m
      (Msg.key enterKey)).model.messages = ["You: hello"] ∧
    plain.textareaValue (Update (run (main plain) [Event.input (Input.key (typed "hello"))]).m
      (Msg.key enterKey)).model.textarea = "" ∧
    (Update (Update (run (main plain) [Event.input (Input.key (typed "hello"))]).m
      (Msg.key enterKey)).model (Msg.response { user := "alice", msg := "hi" })).model.messages =
        ["You: hello", "#alice: hi"] := by
  have h := C7_submit (run (main plain) [Event.input (Input.key (typed "hello"))]) enterKey
    rfl rfl rfl (fun _ => rfl)
  exact ⟨rfl, rfl, h.1, h.2.1, by decide⟩

/-- C8, as stated, fails: an event is on channel 0 and the wait task of `Init` is pending
when Ctrl-C arrives. `Update` returns `tea.Quit` and the loop has not ended; the wait task is
still pending, and when it performs its receive before the runtime has taken the quit message
the event is folded into the history. -/
theorem C8_counterexample :
    (Update (start (modelOn plain (some 0))
        (heapWith 0 [{ user := "alice", msg := "hi" }])).m (Msg.key ctrlCKey)).cmd = Cmd.Quit ∧
      (run (start (modelOn plain (some 0)) (heapWith 0 [{ user := "alice", msg := "hi" }]))
        [Event.input (Input.key ctrlCKey), Event.receive 0]).m.messages = ["#alice: hi"] ∧
      (run (start (modelOn plain (some 0)) (heapWith 0 [{ user := "alice", msg := "hi" }]))
        [Event.input (Input.key ctrlCKey), Event.receive 0]).m.messages ≠
        (start (modelOn plain (some 0))
          (heapWith 0 [{ user := "alice", msg := "hi" }])).m.messages := by
  decide

/-- C8, amended: for every running state and every quit keystroke (Ctrl-C or Esc), `Update`
returns `tea.Quit` as its command, with no wait task and no listener in it, and a model with
the same history, channel and stored error. The step of the runtime starts the quit command
and does nothing else: the history and the channels are as before and the wait tasks that
were pending are still pending. So when one wait task is pending on a channel that holds an
event, its receive right after the quit keystroke still hands the event to `Update`, which
appends its rendering to the history. -/
theorem C8_quit {W : Widgets} (s : State W) (k : KeyMsg)
    (hk : k.keyType = KeyType.KeyCtrlC ∨ k.keyType = KeyType.KeyEsc) (hq : s.quit = false) :
    (Update s.m (Msg.key k)).cmd = Cmd.Quit ∧
      (Update s.m (Msg.key k)).cmd.waits = [] ∧
      (Update s.m (Msg.key k)).cmd.listens = [] ∧
      (Update s.m (Msg.key k)).model.messages = s.m.messages ∧
      (Update s.m (Msg.key k)).model.sub = s.m.sub ∧
      (Update s.m (Msg.key k)).model.err = s.m.err ∧
      (step s (Event.input (Input.key k))).quitting = true ∧
      (step s (Event.input (Input.key k))).quit = false ∧
      (step s (Event.input (Input.key k))).m.messages = s.m.messages ∧
      (step s (Event.input (Input.key k))).chans = s.chans ∧
      (step s (Event.input (Input.key k))).waits = s.waits ∧
      (∀ (c : Nat) (x : responseMsg) (q : List responseMsg),
        s.waits = [some c] → s.chans c = x :: q →
          (step (step s (Event.input (Input.key k))) (Event.receive 0)).m.messages =
              s.m.messages ++ [rendering s.m x] ∧
            (step (step s (Event.input (Input.key k))) (Event.receive 0)).chans c = q) := by
  have hstep : step s (Event.input (Input.key k)) =
      { s with
        m := (Update s.m (Msg.key k)).model
        stdout := s.stdout ++ (Update s.m (Msg.key k)).stdout
        quitting := true } := by
    simp [step, hq, dispatch, spawn, Input.toMsg, Update_quit s.m k hk, Cmd.waits, Cmd.listens,
      Cmd.quits]
  refine ⟨?_, ?_, ?_, ?_, ?_, ?_, ?_, ?_, ?_, ?_, ?_, fun c x q hw hc => ?_⟩
  · rw [Update_quit s.m k hk]
  · rw [Update_quit s.m k hk]; rfl
  · rw [Update_quit s.m k hk]; rfl
  · rw [Update_quit s.m k hk]
  · rw [Update_quit s.m k hk]
  · rw [Update_quit s.m k hk]
  · rw [hstep]
  · rw [hstep]; exact hq
  · rw [hstep, Update_quit s.m k hk]
  · rw [hstep]
  · rw [hstep]
  · rw [hstep]
    simp [step, hq, hw, runWait_cons c s.chans x q hc, dispatch, spawn, Update_response,
      Update_quit s.m k hk, rendering]

/-- C8 on a concrete run: an event is on channel 0 when Ctrl-C arrives; after the step the
history is still empty, the event is still on the channel and the wait task is still
pending, and its receive then puts the line of the event into the history. -/
theorem C8_quit_witness :
    (start (modelOn plain (some 0)) (heapWith 0 [{ user := "alice", msg := "hi" }])).quit = false ∧
    (step (start (modelOn plain (some 0)) (heapWith 0 [{ user := "alice", msg := "hi" }]))
      (Event.input (Input.key ctrlCKey))).m.messages = [] ∧
    (step (start (modelOn plain (some 0)) (heapWith 0 [{ user := "alice", msg := "hi" }]))
      (Event.input (Input.key ctrlCKey))).waits = [some 0] ∧
    (step (start (modelOn plain (some 0)) (heapWith 0 [{ user := "alice", msg := "hi" }]))
      (Event.input (Input.key ctrlCKey))).chans 0 = [{ user := "alice", msg := "hi" }] ∧
    (step (step (start (modelOn plain (some 0)) (heapWith 0 [{ user := "alice", msg := "hi" }]))
      (Event.input (Input.key ctrlCKey))) (Event.receive 0)).m.messages = ["#alice: hi"] := by
  have h := C8_quit
    (start (modelOn plain (some 0)) (heapWith 0 [{ user := "alice", msg := "hi" }]))
    ctrlCKey (Or.inl rfl) rfl
  refine ⟨rfl, h.2.2.2.2.2.2.2.2.1, h.2.2.2.2.2.2.2.2.2.2.1, ?_,
    (h.2.2.2.2.2.2.2.2.2.2.2 0 { user := "alice", msg := "hi" } [] rfl rfl).1⟩
  rw [h.2.2.2.2.2.2.2.2.2.1]
  rfl

/-- C9: for every model and every error value, `Update` returns a model whose stored error
is that value, whatever was stored before, with the same history and channel, and the nil
command; and `View` gives the same text whatever error is stored. -/
theorem C9_error_retained {W : Widgets} (m : model W) (e : GoError) :
    (Update m (Msg.err e)).model.err = some e ∧
      (Update m (Msg.err e)).model.messages = m.messages ∧
      (Update m (Msg.err e)).model.sub = m.sub ∧
      (Update m (Msg.err e)).cmd = Cmd.nil ∧
      (∀ (m1 : model W) (x : Option GoError), View { m1 with err := x } = View m1) :=
  ⟨rfl, rfl, rfl, rfl, fun _ _ => rfl⟩

/-- C10: for every model and every message that is not an event from the channel, not an
error value, and not an Enter, Ctrl-C or Esc keystroke, `Update` returns the model with
only its textarea and viewport replaced by what the two widgets return for the message
(history, channel and stored error as before), and the command is the batch of the two
widget commands, with no wait task, no listener and no quit in it. -/
theorem C10_other_inputs {W : Widgets} (m : model W) (x : Msg)
    (h1 : ∀ r, x ≠ Msg.response r) (h2 : ∀ e, x ≠ Msg.err e)
    (h3 : ∀ k, x = Msg.key k →
      k.keyType ≠ KeyType.KeyEnter ∧ k.keyType ≠ KeyType.KeyCtrlC ∧
        k.keyType ≠ KeyType.KeyEsc) :
    (Update m x).model =
        { m with
          textarea := (W.textareaUpdate m.textarea x).1
          viewport := (W.viewportUpdate m.viewport x).1 } ∧
      (Update m x).model.messages = m.messages ∧
      (Update m x).model.sub = m.sub ∧
      (Update m x).model.err = m.err ∧
      (Update m x).cmd =
        Cmd.Batch (Cmd.widget (W.textareaUpdate m.textarea x).2)
          (Cmd.widget (W.viewportUpdate m.viewport x).2) ∧
      (Update m x).cmd.waits = [] ∧
      (Update m x).cmd.listens = [] ∧
      (Update m x).cmd.quits = false := by
  cases x with
  | key k =>
    obtain ⟨k1, k2, k3⟩ := h3 k rfl
    rw [Update_key_other m k k2 k3 k1]
    exact ⟨rfl, rfl, rfl, rfl, rfl, rfl, rfl, rfl⟩
  | response r => exact absurd rfl (h1 r)
  | err e => exact absurd rfl (h2 e)
  | other t => exact ⟨rfl, rfl, rfl, rfl, rfl, rfl, rfl, rfl⟩

/-- C10 on a concrete input: the keystroke that types the letter a reaches the textarea and
leaves the history empty, with no wait task issued. -/
theorem C10_other_inputs_witness :
    plain.textareaValue
      (Update (modelOn plain (some 0)) (Msg.key (typed "a"))).model.textarea = "a" ∧
    (Update (modelOn plain (some 0)) (Msg.key (typed "a"))).model.messages = [] ∧
    (Update (modelOn plain (some 0)) (Msg.key (typed "a"))).cmd.waits = [] := by
  have h := C10_other_inputs (modelOn plain (some 0)) (Msg.key (typed "a"))
    (fun r hr => by cases hr) (fun e he => by cases he)
    (fun k hk => by cases hk; decide)
  refine ⟨?_, h.2.1, h.2.2.2.2.2.1⟩
  rw [h.1]
  rfl

end Termerino
